import Mathlib

/-!
# Verification of the portfolio page motion engine (`main.js`)

This development shallowly embeds the three coordinating subsystems of the
page script and proves the specified properties about them:

* the **Scroll-Linked Update Ticker** (`initScrollLinked`): the `ticking`
  flag that coalesces scroll events into at most one frame callback, which
  reads the *current* scroll position and publishes the `--scroll-y`
  custom property and the hero parallax/opacity pair;
* the **Viewport Reveal Engine** (`initScrollReveals`): the
  IntersectionObserver path and the scroll-driven geometry fallback that
  race to add the `visible` class to each `.reveal` element exactly once,
  with teardown of the fallback listener once its pending set is empty;
* the **Conversational Form** (`initConvoForm`): the linear chat-style
  state machine with its validation gates, transcript bubbles and the
  final mailto payload composition.

JS numbers that matter here (scroll offsets, viewport heights, the 0.8
opacity divisor) are modelled as rationals; DOM elements are modelled by
an abstract identity type with decidable equality; the single-threaded
event loop is modelled by explicit event lists folded over a step
function, one event per run-to-completion callback.
-/

/- ============================================================
   Scroll-Linked Update Ticker (`initScrollLinked`, main.js 237-266)
   ============================================================ -/

/-- State of the scroll-linked ticker: the viewport height
(`window.innerHeight`), the browser-maintained scroll position
(`window.scrollY`), the `ticking` in-flight flag (true exactly when a
`requestAnimationFrame` callback is scheduled), the list of `--scroll-y`
values published so far (one entry per executed frame callback), and the
last hero opacity style written, if any. -/
structure TickerState where
  vh : ℚ
  scrollY : ℚ
  ticking : Bool
  published : List ℚ
  heroOpacityOut : Option ℚ
deriving DecidableEq

/-- Hero opacity as computed in the frame callback:
`Math.max(0, 1 - scrollY / (window.innerHeight * 0.8))`. -/
def heroOpacity (vh y : ℚ) : ℚ := max 0 (1 - y / (vh * (4 / 5)))

/-- One raw scroll event at position `p`: the browser updates `scrollY`
unconditionally; the handler schedules a frame callback unless one is
already in flight, so afterwards `ticking` is true in either case. -/
def tickerScroll (s : TickerState) (p : ℚ) : TickerState :=
  { s with scrollY := p, ticking := true }

/-- A display frame boundary: if a callback is scheduled it runs now,
reading the current `scrollY`, publishing it, writing the hero opacity
when `scrollY < innerHeight`, and clearing the flag. -/
def tickerFrame (s : TickerState) : TickerState :=
  if s.ticking then
    { s with
      published := s.published ++ [s.scrollY],
      heroOpacityOut :=
        if s.scrollY < s.vh then some (heroOpacity s.vh s.scrollY)
        else s.heroOpacityOut,
      ticking := false }
  else s

/-- A burst of scroll events within one frame window. -/
def tickerScrolls (s : TickerState) (ps : List ℚ) : TickerState :=
  ps.foldl tickerScroll s

/- ============================================================
   Viewport Reveal Engine (`initScrollReveals`, main.js 74-139)
   ============================================================ -/

/-- State of the reveal engine over an abstract element type `T`:
`visible t` models membership of the `visible` class on `t`;
`observed` is the IntersectionObserver's watch set; `pending` is the
fallback's array of unresolved elements (in document order);
`fallbackTicking` is the fallback's coalescing flag (a `checkFallback`
is queued); `listenerAttached` records whether `onScrollFallback` is
registered; `revealCount t` counts the `classList.add` side-effect
invocations on `t`; `geomChecks` counts `getBoundingClientRect` calls. -/
structure RevealState (T : Type) [DecidableEq T] where
  visible : T → Bool
  observed : Finset T
  pending : List T
  fallbackTicking : Bool
  listenerAttached : Bool
  revealCount : T → ℕ
  geomChecks : ℕ

/-- Events interleaved by the single-threaded loop: an observer
notification for target `t` with its `isIntersecting` flag, a raw scroll
event, and a frame boundary whose environment `geom t` says whether
`t`'s bounding rect currently overlaps `[0, innerHeight]`. -/
inductive REvent (T : Type) where
  | obsFire (t : T) (intersecting : Bool)
  | scroll
  | frame (geom : T → Bool)

/-- The body of `checkFallback` (main.js 109-122): iterate the pending
array from its end; an already-visible element is just spliced out; a
non-visible element costs one geometry query and, if on screen, is
marked visible, unobserved from the primary path and spliced out.
Returns the updated state together with the surviving pending array. -/
def checkBody {T : Type} [DecidableEq T] (geom : T → Bool) :
    List T → RevealState T → RevealState T × List T
  | [], s => (s, [])
  | t :: rest, s =>
    let pr := checkBody geom rest s
    let s1 := pr.1
    if s1.visible t then (s1, pr.2)
    else if geom t then
      ({ s1 with
          visible := fun x => if x = t then true else s1.visible x,
          revealCount := fun x => if x = t then s1.revealCount x + 1 else s1.revealCount x,
          observed := s1.observed.erase t,
          geomChecks := s1.geomChecks + 1 }, pr.2)
    else ({ s1 with geomChecks := s1.geomChecks + 1 }, t :: pr.2)

/-- `checkFallback` (main.js 109-127): run the body, store the surviving
pending array, clear the coalescing flag, and when nothing is pending
remove the scroll listener. -/
def checkFallback {T : Type} [DecidableEq T] (geom : T → Bool)
    (s : RevealState T) : RevealState T :=
  let pr := checkBody geom s.pending s
  let s2 := { pr.1 with pending := pr.2, fallbackTicking := false }
  if pr.2.isEmpty then { s2 with listenerAttached := false } else s2

/-- One event of the reveal engine.  The observer callback (main.js
86-93) fires only for targets still in the observer's watch set: it adds
the `visible` class and unobserves the target.  `onScrollFallback`
(main.js 129-134) schedules a check unless one is queued, and only while
the listener is attached.  A frame runs the queued check, if any. -/
def revealStep {T : Type} [DecidableEq T] (s : RevealState T) :
    REvent T → RevealState T
  | .obsFire t inter =>
    if t ∈ s.observed ∧ inter then
      { s with
        visible := fun x => if x = t then true else s.visible x,
        revealCount := fun x => if x = t then s.revealCount x + 1 else s.revealCount x,
        observed := s.observed.erase t }
    else s
  | .scroll =>
    if s.listenerAttached ∧ ¬s.fallbackTicking then
      { s with fallbackTicking := true }
    else s
  | .frame geom => if s.fallbackTicking then checkFallback geom s else s

/-- Fold a list of events over the reveal engine. -/
def revealSteps {T : Type} [DecidableEq T] (s : RevealState T)
    (evs : List (REvent T)) : RevealState T :=
  evs.foldl revealStep s

/-- Normal-mode initialization (main.js 85-138): nothing visible, all
targets observed and pending, the fallback listener attached, and one
immediate `checkFallback` queued via `requestAnimationFrame`. -/
def initNormal {T : Type} [DecidableEq T] (targets : List T) : RevealState T :=
  { visible := fun _ => false,
    observed := targets.toFinset,
    pending := targets,
    fallbackTicking := true,
    listenerAttached := true,
    revealCount := fun _ => 0,
    geomChecks := 0 }

/-- Degraded-mode initialization (main.js 78-83): every target receives
the `visible` class immediately and nothing is observed, pending or
listened to. -/
def initDegraded {T : Type} [DecidableEq T] (targets : List T) : RevealState T :=
  { visible := fun t => decide (t ∈ targets),
    observed := ∅,
    pending := [],
    fallbackTicking := false,
    listenerAttached := false,
    revealCount := fun t => if t ∈ targets then 1 else 0,
    geomChecks := 0 }

/-- `initScrollReveals` dispatch (main.js 78): degraded when the
observation primitive is missing or reduced motion is requested. -/
def initScrollReveals {T : Type} [DecidableEq T]
    (hasObserver reducedMotion : Bool) (targets : List T) : RevealState T :=
  if !hasObserver || reducedMotion then initDegraded targets
  else initNormal targets

/-- Whether `initScrollLinked` (main.js 237-238, 265) attaches its
scroll listener: it early-returns exactly when reduced motion is
requested, regardless of observer availability. -/
def scrollLinkedAttachesListener (reducedMotion : Bool) : Bool :=
  !reducedMotion

/-- The reveal observer's configuration (main.js 94-97):
`threshold: 0`, `rootMargin: '50px 0px -60px 0px'` — margins are fixed
pixel counts, not viewport proportions. -/
structure ObserverConfig where
  threshold : ℚ
  marginTopPx : ℚ
  marginBottomPx : ℚ
deriving DecidableEq

/-- The literal options object passed to the `IntersectionObserver`. -/
def revealObserverConfig : ObserverConfig :=
  { threshold := 0, marginTopPx := 50, marginBottomPx := -60 }

/-- How far above the viewport the effective intersection bound is
pushed for a given viewport height: the top `rootMargin` component,
a constant 50 pixels. -/
def topBoundExpansionPx (vh : ℚ) : ℚ :=
  revealObserverConfig.marginTopPx + 0 * vh

/- ============================================================
   Conversational Form (`initConvoForm`, main.js 478-637)
   ============================================================ -/

/-- JS whitespace test used by `String.prototype.trim`. -/
def isJsWs (c : Char) : Bool := c.isWhitespace

/-- Trim a character list on both ends, as `trim` does. -/
def trimL (l : List Char) : List Char :=
  ((l.dropWhile isJsWs).reverse.dropWhile isJsWs).reverse

/-- Model of `String.prototype.trim`. -/
def jsTrim (s : String) : String := ⟨trimL s.data⟩

/-- A string made only of whitespace. -/
def wsOnly (s : String) : Bool := s.data.all isJsWs

/-- A character list with no leading and no trailing whitespace. -/
def noEdgeL (l : List Char) : Bool :=
  (l.head?.all fun c => !isJsWs c) && (l.getLast?.all fun c => !isJsWs c)

/-- A string with no leading and no trailing whitespace. -/
def noEdgeWs (s : String) : Bool := noEdgeL s.data

/-- Who produced a chat bubble. -/
inductive Actor where
  | bot
  | user
deriving DecidableEq

/-- The opposite actor. -/
def Actor.flip : Actor → Actor
  | .bot => .user
  | .user => .bot

/-- One transcript bubble (`addBubble`): an actor tag plus its text. -/
structure Turn where
  actor : Actor
  text : String
deriving DecidableEq

/-- The `answers` record (main.js 489). -/
structure Answers where
  work : String
  source : String
  name : String
  email : String
  note : String
deriving DecidableEq

/-- The form's position in its linear step sequence: `idle` before the
start click, then the three step panels, then the terminal success
panel. -/
inductive FStep where
  | idle
  | workType
  | source
  | details
  | success
deriving DecidableEq

/-- Which input is flagged invalid (given the orange border colour and
focus) on a refused transition. -/
inductive FField where
  | workField
  | nameField
  | emailField
deriving DecidableEq

/-- The composed mailto payload: fixed recipient, subject and body
strings (the arguments of the two `encodeURIComponent` calls). -/
structure MailPayload where
  recipient : String
  subject : String
  body : String
deriving DecidableEq

/-- User inputs the page can deliver to the form: the start click, the
step-1 Next click carrying the current work-type select value, a source
pill click carrying its `data-value`, and the send click (or its
Enter-key equivalent) carrying the three raw text field values. -/
inductive FormInput where
  | start
  | step1Next (workValue : String)
  | pillClick (sourceValue : String)
  | send (name email note : String)
deriving DecidableEq

/-- Whole session state: current step, the `answers` record, the chat
transcript in append order, the composed payload once emitted, and the
last field flagged invalid. -/
structure FormSession where
  step : FStep
  answers : Answers
  transcript : List Turn
  payload : Option MailPayload
  flagged : Option FField
deriving DecidableEq

/-- An apostrophe character, for bot texts that contain one. -/
def apos : String := String.singleton (Char.ofNat 39)

/-- First bot question (main.js 530). -/
def botQ1 : String := "Hey! What kind of work are you looking for?"

/-- Second bot question (main.js 550). -/
def botQ2 : String := "Nice. How did you find me?"

/-- Third bot message (main.js 564). -/
def botQ3 : String :=
  "Almost there — drop your details and I" ++ apos ++ "ll be in touch."

/-- The address-delimiting character checked by the email validation. -/
def atChar : Char := '@'

/-- `email.indexOf(c) !== -1`, as a character-membership test (the
built-in position-based string search does not reduce in the kernel). -/
def hasChar (s : String) (c : Char) : Bool := s.data.contains c

/-- Split a character list at every newline. -/
def splitOnNl (l : List Char) : List (List Char) :=
  match l with
  | [] => [[]]
  | c :: rest =>
    match splitOnNl rest with
    | [] => [[]]
    | h :: t => if c = Char.ofNat 10 then [] :: h :: t else (c :: h) :: t

/-- The lines of a string, splitting at every newline. -/
def strLines (s : String) : List String :=
  (splitOnNl s.data).map fun l => ⟨l⟩

/-- The mailto composition (main.js 592-603), applied to the committed
answers: fixed recipient, subject from name and work type, body with one
line per field, an optional `Note:` line, and the closing boilerplate. -/
def composeMail (a : Answers) : MailPayload :=
  { recipient := "azlanallahwala@gmail.com",
    subject := "New inquiry from " ++ a.name ++ " — " ++ a.work,
    body :=
      "Hi Azlan,\n\n" ++
      "Name: " ++ a.name ++ "\n" ++
      "Email: " ++ a.email ++ "\n" ++
      "Looking for: " ++ a.work ++ "\n" ++
      "Found you via: " ++ a.source ++ "\n" ++
      (if a.note ≠ "" then "Note: " ++ a.note ++ "\n" else "") ++
      "\nSent from your portfolio site." }

/-- The dormant session before the start click. -/
def initSession : FormSession :=
  { step := .idle,
    answers := { work := "", source := "", name := "", email := "", note := "" },
    transcript := [],
    payload := none,
    flagged := none }

/-- One user input against the session.  Each handler acts only while
its own step panel is the active (clickable) one; the steps mirror
main.js 525-533 (start), 539-553 (step-1 Next), 557-571 (source pill)
and 574-624 (send).  Refused validations (empty work selection; empty
trimmed name; trimmed email empty or lacking `@`) flag the offending
field and change nothing else.  A successful send commits the trimmed
answers, appends the combined user bubble, composes the payload and
enters the terminal success state. -/
def formStep (s : FormSession) (i : FormInput) : FormSession :=
  match i with
  | .start =>
    if s.step = .idle then
      { s with
        transcript := s.transcript ++ [⟨.bot, botQ1⟩],
        step := .workType }
    else s
  | .step1Next v =>
    if s.step = .workType then
      if v = "" then { s with flagged := some .workField }
      else
        { s with
          answers := { s.answers with work := v },
          transcript := s.transcript ++ [⟨.user, v⟩, ⟨.bot, botQ2⟩],
          step := .source }
    else s
  | .pillClick v =>
    if s.step = .source then
      { s with
        answers := { s.answers with source := v },
        transcript := s.transcript ++ [⟨.user, v⟩, ⟨.bot, botQ3⟩],
        step := .details }
    else s
  | .send n e nt =>
    if s.step = .details then
      if jsTrim n = "" then { s with flagged := some .nameField }
      else if jsTrim e = "" ∨ hasChar (jsTrim e) atChar = false then
        { s with flagged := some .emailField }
      else
        { s with
          answers :=
            { work := s.answers.work, source := s.answers.source,
              name := jsTrim n, email := jsTrim e, note := jsTrim nt },
          transcript :=
            s.transcript ++ [⟨.user, jsTrim n ++ " — " ++ jsTrim e⟩],
          payload := some (composeMail
            { work := s.answers.work, source := s.answers.source,
              name := jsTrim n, email := jsTrim e, note := jsTrim nt }),
          step := .success }
    else s

/-- Fold a list of inputs over the session. -/
def formSteps (s : FormSession) (is : List FormInput) : FormSession :=
  is.foldl formStep s

/-- A source pill carries a non-empty `data-value`.  Modelled from the
spec: the pill elements and their values live in the page markup (not
part of the script); the spec fixes the source step to "a discrete
choice (not free text)" from "a fixed choice set" of labels. -/
def pillOk : FormInput → Bool
  | .pillClick v => !(v == "")
  | _ => true

/-- Strict bot/user alternation of a transcript starting from `a`. -/
def alternatesFrom : Actor → List Turn → Bool
  | _, [] => true
  | a, t :: rest => (t.actor == a) && alternatesFrom a.flip rest

/-- A transcript that starts with a bot turn and strictly alternates. -/
def alternatesBotUser (ts : List Turn) : Bool := alternatesFrom .bot ts

/-- The concrete input trace of testable property 6. -/
def c5Inputs : List FormInput :=
  [.start, .step1Next "Design", .pillClick "Referral",
   .send "Ana" "ana@x.com" ""]

/-- The answers committed by the end of that trace. -/
def c5Answers : Answers :=
  { work := "Design", source := "Referral", name := "Ana",
    email := "ana@x.com", note := "" }

/-- A session sitting at the Details step, used to instantiate the
hypothesis-bearing form theorems. -/
def detailsSession : FormSession :=
  { step := .details,
    answers := { work := "Design", source := "Referral", name := "", email := "", note := "" },
    transcript := [⟨.bot, botQ1⟩, ⟨.user, "Design"⟩, ⟨.bot, botQ2⟩,
                   ⟨.user, "Referral"⟩, ⟨.bot, botQ3⟩],
    payload := none,
    flagged := none }

/-- The reveal engine's per-target bookkeeping invariant: a visible
target is no longer watched by the observer, and the number of
`classList.add('visible')` invocations on a target is 1 when it is
visible and 0 otherwise. -/
def RevealInv {T : Type} [DecidableEq T] (s : RevealState T) : Prop :=
  ∀ t : T,
    (s.visible t = true → t ∉ s.observed) ∧
    s.revealCount t = (if s.visible t then 1 else 0)

/-- The form's linearity invariant: `work` is committed before the
Source step can be current, `work` and `source` before Details, and a
non-empty name plus an `@`-bearing email before Success. -/
def FormInv (s : FormSession) : Prop :=
  ((s.step = FStep.source ∨ s.step = FStep.details ∨ s.step = FStep.success) →
      s.answers.work ≠ "") ∧
  ((s.step = FStep.details ∨ s.step = FStep.success) →
      s.answers.source ≠ "") ∧
  (s.step = FStep.success →
      s.answers.name ≠ "" ∧ hasChar s.answers.email atChar = true)

/- ============================================================
   Theorems
   ============================================================ -/

/-- A burst of scroll events leaves the coalescing flag set, moves
`scrollY` to the last event's position and publishes nothing by itself. -/
theorem tickerScrolls_spec (ps : List ℚ) (p : ℚ) :
    ∀ s : TickerState, ps.getLast? = some p →
      (tickerScrolls s ps).ticking = true ∧
      (tickerScrolls s ps).scrollY = p ∧
      (tickerScrolls s ps).published = s.published ∧
      (tickerScrolls s ps).vh = s.vh := by
  induction ps with
  | nil => intro s h; simp at h
  | cons a rest ih =>
    intro s h
    cases rest with
    | nil =>
      simp only [List.getLast?_singleton, Option.some.injEq] at h
      subst h
      simp [tickerScrolls, tickerScroll]
    | cons b t =>
      have h2 : (b :: t).getLast? = some p := by
        simpa [List.getLast?_cons_cons] using h
      have hrec := ih (tickerScroll s a) h2
      simpa [tickerScrolls, tickerScroll] using hrec

/-- C2: any N ≥ 1 scroll events dispatched within a single frame window
result in exactly one Ticker computation, and that computation reads and
publishes the scroll position of the last event; no frame ever produces
more than one publish. -/
theorem frame_coalescing (s : TickerState) (ps : List ℚ) (p : ℚ)
    (h : ps.getLast? = some p) :
    (tickerFrame (tickerScrolls s ps)).published = s.published ++ [p] ∧
    ∀ s2 : TickerState,
      (tickerFrame s2).published.length ≤ s2.published.length + 1 := by
  obtain ⟨ht, hy, hp, _⟩ := tickerScrolls_spec ps p s h
  constructor
  · simp [tickerFrame, ht, hy, hp]
  · intro s2
    by_cases h2 : s2.ticking = true <;> simp [tickerFrame, h2]

/-- Witness for `frame_coalescing` at a three-event burst. -/
theorem frame_coalescing_witness :
    ([(5 : ℚ), 9, 12].getLast? = some 12) ∧
    ((tickerFrame (tickerScrolls ⟨100, 0, false, [], none⟩
        [(5 : ℚ), 9, 12])).published = ([] : List ℚ) ++ [12] ∧
     ∀ s2 : TickerState,
       (tickerFrame s2).published.length ≤ s2.published.length + 1) :=
  ⟨by decide, frame_coalescing ⟨100, 0, false, [], none⟩ [5, 9, 12] 12 (by decide)⟩

/-- C4: the derived hero opacity equals 1 at offset 0, stays within
[0, 1] for every nonnegative offset, is strictly decreasing up to the
0.8 × viewport-height threshold, clamps to 0 from that threshold on, and
is exactly the value the frame callback publishes for an offset inside
the hero's active range. -/
theorem hero_opacity_boundary (vh y a b : ℚ) (s : TickerState)
    (hvh : 0 < vh) (hy : 0 ≤ y) (ha : 0 ≤ a) (hab : a < b)
    (haR : a < vh * (4 / 5)) :
    heroOpacity vh 0 = 1 ∧
    (0 ≤ heroOpacity vh y ∧ heroOpacity vh y ≤ 1) ∧
    heroOpacity vh b < heroOpacity vh a ∧
    (vh * (4 / 5) ≤ y → heroOpacity vh y = 0) ∧
    (s.ticking = true → s.scrollY < s.vh →
      (tickerFrame s).heroOpacityOut = some (heroOpacity s.vh s.scrollY)) := by
  have hd : 0 < vh * (4 / 5) := by positivity
  refine ⟨?_, ⟨?_, ?_⟩, ?_, ?_, ?_⟩
  · simp [heroOpacity, zero_div]
  · exact le_max_left 0 _
  · have hq : 0 ≤ y / (vh * (4 / 5)) := div_nonneg hy hd.le
    have : 1 - y / (vh * (4 / 5)) ≤ 1 := by linarith
    exact max_le (by norm_num) this
  · have hlt : a / (vh * (4 / 5)) < 1 := (div_lt_one hd).2 haR
    have hpa : 0 < 1 - a / (vh * (4 / 5)) := by linarith
    have hfrac : a / (vh * (4 / 5)) < b / (vh * (4 / 5)) := by gcongr
    have hba : 1 - b / (vh * (4 / 5)) < 1 - a / (vh * (4 / 5)) := by linarith
    have hA : heroOpacity vh a = 1 - a / (vh * (4 / 5)) :=
      max_eq_right hpa.le
    rw [hA]
    exact max_lt hpa hba
  · intro hyd
    have : 1 ≤ y / (vh * (4 / 5)) := (one_le_div hd).2 hyd
    have hle : 1 - y / (vh * (4 / 5)) ≤ 0 := by linarith
    exact max_eq_left hle
  · intro ht hlt
    simp [tickerFrame, ht, hlt]

/-- Witness for `hero_opacity_boundary` at viewport height 100. -/
theorem hero_opacity_boundary_witness :
    ((0 : ℚ) < 100 ∧ (0 : ℚ) ≤ 80 ∧ (0 : ℚ) ≤ 0 ∧ (0 : ℚ) < 40 ∧
      (0 : ℚ) < 100 * (4 / 5)) ∧
    (heroOpacity 100 0 = 1 ∧
     (0 ≤ heroOpacity 100 80 ∧ heroOpacity 100 80 ≤ 1) ∧
     heroOpacity 100 40 < heroOpacity 100 0 ∧
     (100 * (4 / 5) ≤ (80 : ℚ) → heroOpacity 100 80 = 0) ∧
     ((⟨100, 30, true, [], none⟩ : TickerState).ticking = true →
       (⟨100, 30, true, [], none⟩ : TickerState).scrollY <
         (⟨100, 30, true, [], none⟩ : TickerState).vh →
       (tickerFrame ⟨100, 30, true, [], none⟩).heroOpacityOut =
         some (heroOpacity (⟨100, 30, true, [], none⟩ : TickerState).vh
           (⟨100, 30, true, [], none⟩ : TickerState).scrollY))) :=
  ⟨by norm_num,
   hero_opacity_boundary 100 80 0 40 ⟨100, 30, true, [], none⟩
     (by norm_num) (by norm_num) le_rfl (by norm_num) (by norm_num)⟩

/-- `checkBody` never removes the `visible` class from a target. -/
theorem checkBody_visible_mono {T : Type} [DecidableEq T] (geom : T → Bool)
    (l : List T) :
    ∀ (s : RevealState T) (t : T), s.visible t = true →
      (checkBody geom l s).1.visible t = true := by
  induction l with
  | nil => intro s t h; simpa [checkBody] using h
  | cons a rest ih =>
    intro s t h
    have h1 := ih s t h
    simp only [checkBody]
    by_cases hv : (checkBody geom rest s).1.visible a = true
    · simpa [hv] using h1
    · by_cases hg : geom a = true
      · by_cases hta : t = a
        · simp [hv, hg, hta]
        · simp [hv, hg, hta, h1]
      · simpa [hv, hg] using h1

/-- `checkFallback` never removes the `visible` class from a target. -/
theorem checkFallback_visible_mono {T : Type} [DecidableEq T]
    (geom : T → Bool) (s : RevealState T) (t : T) (h : s.visible t = true) :
    (checkFallback geom s).visible t = true := by
  have := checkBody_visible_mono geom s.pending s t h
  unfold checkFallback
  by_cases he : (checkBody geom s.pending s).2.isEmpty = true <;> simp [he, this]

/-- No reveal-engine event ever removes the `visible` class: the
transition is monotone false → true. -/
theorem revealStep_visible_mono {T : Type} [DecidableEq T]
    (s : RevealState T) (e : REvent T) (t : T) (h : s.visible t = true) :
    (revealStep s e).visible t = true := by
  cases e with
  | obsFire u inter =>
    by_cases hm : u ∈ s.observed ∧ inter = true
    · by_cases htu : t = u <;> simp [revealStep, hm, htu, h]
    · simpa [revealStep, hm] using h
  | scroll =>
    simp only [revealStep]
    split <;> simpa using h
  | frame geom =>
    by_cases hf : s.fallbackTicking = true
    · simpa [revealStep, hf] using checkFallback_visible_mono geom s t h
    · simpa [revealStep, hf] using h

/-- `checkBody` preserves the reveal bookkeeping invariant. -/
theorem checkBody_inv {T : Type} [DecidableEq T] (geom : T → Bool)
    (l : List T) :
    ∀ s : RevealState T, RevealInv s → RevealInv (checkBody geom l s).1 := by
  induction l with
  | nil => intro s h; simpa [checkBody] using h
  | cons a rest ih =>
    intro s h
    have hr := ih s h
    simp only [checkBody]
    by_cases hv : (checkBody geom rest s).1.visible a = true
    · simpa [hv] using hr
    · by_cases hg : geom a = true
      · rw [Bool.not_eq_true] at hv
        simp only [hv, hg, if_true, if_false, Bool.false_eq_true]
        intro x
        by_cases hx : x = a
        · subst hx
          have hc := (hr x).2
          rw [hv] at hc
          refine ⟨fun _ => Finset.not_mem_erase _ _, ?_⟩
          simp [hc]
        · have h1 := (hr x).1
          have h2 := (hr x).2
          refine ⟨fun hvx => ?_, ?_⟩
          · simp only [hx, if_false] at hvx
            intro hmem
            exact h1 hvx (Finset.mem_of_mem_erase hmem)
          · simpa [hx] using h2
      · simpa [hv, hg] using hr

/-- `checkFallback` preserves the reveal bookkeeping invariant. -/
theorem checkFallback_inv {T : Type} [DecidableEq T] (geom : T → Bool)
    (s : RevealState T) (h : RevealInv s) : RevealInv (checkFallback geom s) := by
  have hb := checkBody_inv geom s.pending s h
  unfold checkFallback
  by_cases he : (checkBody geom s.pending s).2.isEmpty = true <;>
    · simp only [he, if_true, if_false, Bool.false_eq_true]
      intro x
      exact ⟨(hb x).1, (hb x).2⟩

/-- Every reveal-engine event preserves the bookkeeping invariant. -/
theorem revealStep_inv {T : Type} [DecidableEq T] (s : RevealState T)
    (e : REvent T) (h : RevealInv s) : RevealInv (revealStep s e) := by
  cases e with
  | obsFire u inter =>
    simp only [revealStep]
    split
    · rename_i hm
      intro x
      by_cases hx : x = u
      · subst hx
        have hvis : s.visible x = false := by
          by_contra hc
          rw [Bool.not_eq_false] at hc
          exact (h x).1 hc hm.1
        have hc := (h x).2
        rw [hvis] at hc
        refine ⟨fun _ => Finset.not_mem_erase _ _, ?_⟩
        simp [hc]
      · have h1 := (h x).1
        have h2 := (h x).2
        refine ⟨fun hvx => ?_, ?_⟩
        · simp only [hx, if_false] at hvx
          intro hmem
          exact h1 hvx (Finset.mem_of_mem_erase hmem)
        · simpa [hx] using h2
    · exact h
  | scroll =>
    simp only [revealStep]
    split <;> simpa using h
  | frame geom =>
    by_cases hf : s.fallbackTicking = true
    · simpa [revealStep, hf] using checkFallback_inv geom s h
    · simpa [revealStep, hf] using h

/-- Folding any event list preserves the bookkeeping invariant. -/
theorem revealSteps_inv {T : Type} [DecidableEq T] (evs : List (REvent T)) :
    ∀ s : RevealState T, RevealInv s → RevealInv (revealSteps s evs) := by
  induction evs with
  | nil => intro s h; exact h
  | cons e rest ih =>
    intro s h
    exact ih (revealStep s e) (revealStep_inv s e h)

/-- Both initialization modes satisfy the bookkeeping invariant. -/
theorem initScrollReveals_inv {T : Type} [DecidableEq T]
    (hasObs rm : Bool) (targets : List T) :
    RevealInv (initScrollReveals hasObs rm targets) := by
  unfold initScrollReveals
  by_cases hc : (!hasObs || rm) = true
  · simp only [hc, if_true]
    intro t
    unfold initDegraded
    refine ⟨fun _ => Finset.not_mem_empty t, ?_⟩
    by_cases hm : t ∈ targets <;> simp [hm]
  · simp only [hc, if_false, Bool.false_eq_true]
    intro t
    unfold initNormal
    exact ⟨by simp, by simp⟩

/-- C1: from initialization, under any interleaving of observer
notifications, scroll events and frames, the `visible`-marking side
effect is invoked at most once per target, and no single event ever
reverts `visible` from true to false. -/
theorem exactly_once_reveal {T : Type} [DecidableEq T]
    (hasObs rm : Bool) (targets : List T) (evs : List (REvent T)) (t : T)
    (s : RevealState T) (e : REvent T) :
    (revealSteps (initScrollReveals hasObs rm targets) evs).revealCount t ≤ 1 ∧
    s.visible t ≤ (revealStep s e).visible t := by
  constructor
  · have hinv :=
      revealSteps_inv evs (initScrollReveals hasObs rm targets)
        (initScrollReveals_inv hasObs rm targets)
    have hc := (hinv t).2
    rw [hc]
    by_cases hv :
        (revealSteps (initScrollReveals hasObs rm targets) evs).visible t = true <;>
      simp [hv]
  · by_cases hb : s.visible t = true
    · rw [revealStep_visible_mono s e t hb, hb]
    · rw [Bool.not_eq_true] at hb
      rw [hb]
      exact Bool.false_le _

/-- One `checkFallback` run always ends with the coalescing flag clear,
and ends with the listener removed whenever its pending set came out
empty. -/
theorem checkFallback_teardown_state {T : Type} [DecidableEq T]
    (geom : T → Bool) (s : RevealState T)
    (h : (checkFallback geom s).pending = []) :
    (checkFallback geom s).listenerAttached = false ∧
    (checkFallback geom s).fallbackTicking = false := by
  unfold checkFallback at h ⊢
  by_cases he : (checkBody geom s.pending s).2.isEmpty = true
  · simp [he]
  · simp only [he, if_true, if_false, Bool.false_eq_true] at h
    rw [List.isEmpty_iff] at he
    exact absurd h he

/-- Once the listener is detached and no check is queued, no event
changes the geometry-check counter, reattaches the listener, or queues a
check. -/
theorem revealStep_frozen {T : Type} [DecidableEq T]
    (s : RevealState T) (e : REvent T)
    (hl : s.listenerAttached = false) (hf : s.fallbackTicking = false) :
    (revealStep s e).geomChecks = s.geomChecks ∧
    (revealStep s e).listenerAttached = false ∧
    (revealStep s e).fallbackTicking = false := by
  cases e with
  | obsFire u inter =>
    simp only [revealStep]
    split <;> simp [hl, hf]
  | scroll => simp [revealStep, hl, hf]
  | frame geom => simp [revealStep, hf, hl]

/-- Folded version of `revealStep_frozen` over any event list. -/
theorem revealSteps_frozen {T : Type} [DecidableEq T]
    (evs : List (REvent T)) :
    ∀ s : RevealState T, s.listenerAttached = false →
      s.fallbackTicking = false →
      (revealSteps s evs).geomChecks = s.geomChecks ∧
      (revealSteps s evs).listenerAttached = false ∧
      (revealSteps s evs).fallbackTicking = false := by
  induction evs with
  | nil => intro s hl hf; exact ⟨rfl, hl, hf⟩
  | cons e rest ih =>
    intro s hl hf
    obtain ⟨hg, hl2, hf2⟩ := revealStep_frozen s e hl hf
    obtain ⟨hg3, hl3, hf3⟩ := ih (revealStep s e) hl2 hf2
    refine ⟨?_, hl3, hf3⟩
    simpa [revealSteps] using hg3.trans hg

/-- C6: when a `checkFallback` run leaves the pending set empty, the
scroll listener is removed by that same run, and no sequence of further
events (scrolls, frames, observer callbacks) performs another geometry
check. -/
theorem fallback_teardown {T : Type} [DecidableEq T]
    (geom : T → Bool) (s : RevealState T) (evs : List (REvent T))
    (h : (checkFallback geom s).pending = []) :
    (checkFallback geom s).listenerAttached = false ∧
    (revealSteps (checkFallback geom s) evs).geomChecks =
      (checkFallback geom s).geomChecks := by
  obtain ⟨hl, hf⟩ := checkFallback_teardown_state geom s h
  exact ⟨hl, (revealSteps_frozen evs _ hl hf).1⟩

/-- Witness for `fallback_teardown`: a single target on screen is
resolved by the check; later scrolls and frames do nothing. -/
theorem fallback_teardown_witness :
    (checkFallback (fun _ => true) (initNormal [(0 : ℕ)])).pending = [] ∧
    ((checkFallback (fun _ => true) (initNormal [(0 : ℕ)])).listenerAttached = false ∧
     (revealSteps (checkFallback (fun _ => true) (initNormal [(0 : ℕ)]))
        [REvent.scroll, REvent.frame (fun _ => true)]).geomChecks =
       (checkFallback (fun _ => true) (initNormal [(0 : ℕ)])).geomChecks) :=
  ⟨rfl, fallback_teardown (fun _ => true) (initNormal [(0 : ℕ)])
    [REvent.scroll, REvent.frame (fun _ => true)] rfl⟩

/-- C7 counterexample: with the observation primitive unavailable but
motion allowed — an instance of the claim's antecedent — the Reveal
Engine degrades as claimed (target visible, no listener), yet the Ticker
still attaches its scroll listener, refuting "neither the Reveal Engine
nor the Ticker ever attaches a scroll listener". -/
theorem degraded_mode_totality_cx :
    (initScrollReveals false false [(0 : ℕ)]).visible 0 = true ∧
    (initScrollReveals false false [(0 : ℕ)]).listenerAttached = false ∧
    scrollLinkedAttachesListener false = true := by
  refine ⟨?_, rfl, rfl⟩
  simp [initScrollReveals, initDegraded]

/-- C7 (amended): if reduced motion is requested or the observation
primitive is unavailable, every revealable target is visible immediately
after initialization and the Reveal Engine never attaches its scroll
listener; the Ticker attaches no scroll listener when reduced motion is
requested (it does attach one when motion is allowed, even without the
observation primitive). -/
theorem degraded_mode_totality {T : Type} [DecidableEq T]
    (hasObs rm : Bool) (targets : List T) (t : T) (evs : List (REvent T))
    (h : rm = true ∨ hasObs = false) (ht : t ∈ targets) :
    (initScrollReveals hasObs rm targets).visible t = true ∧
    (revealSteps (initScrollReveals hasObs rm targets) evs).listenerAttached =
      false ∧
    (rm = true → scrollLinkedAttachesListener rm = false) := by
  have hdeg : initScrollReveals hasObs rm targets = initDegraded targets := by
    rcases h with h | h <;> simp [initScrollReveals, h]
  rw [hdeg]
  refine ⟨?_, ?_, ?_⟩
  · simp [initDegraded, ht]
  · exact (revealSteps_frozen evs (initDegraded targets) rfl rfl).2.1
  · intro hrm
    simp [scrollLinkedAttachesListener, hrm]

/-- Witness for `degraded_mode_totality` with reduced motion requested. -/
theorem degraded_mode_totality_witness :
    ((true = true ∨ true = false) ∧ (1 : ℕ) ∈ [1]) ∧
    ((initScrollReveals true true [(1 : ℕ)]).visible 1 = true ∧
     (revealSteps (initScrollReveals true true [(1 : ℕ)])
        [REvent.scroll]).listenerAttached = false ∧
     (true = true → scrollLinkedAttachesListener true = false)) :=
  ⟨⟨Or.inl rfl, by decide⟩,
   degraded_mode_totality true true [1] 1 [REvent.scroll] (Or.inl rfl) (by decide)⟩

/-- C9 counterexample: at viewport height 800 the observer's top-bound
expansion is the fixed 50 pixels of `rootMargin`, which is not "roughly
half a viewport-height" — it does not even reach a quarter of it. -/
theorem observer_entry_margin_cx :
    topBoundExpansionPx 800 = 50 ∧
    ¬(800 * (1 / 4 : ℚ) ≤ topBoundExpansionPx 800) := by
  constructor <;> norm_num [topBoundExpansionPx, revealObserverConfig]

/-- C9 (amended): the primary observer watches all targets, with
threshold 0 and a fixed pixel entry margin — the top intersection bound
expanded by 50 pixels (slightly early) and the bottom bound contracted
by 60 pixels (somewhat late) — independent of the viewport height. -/
theorem observer_entry_margin {T : Type} [DecidableEq T]
    (targets : List T) (vh : ℚ) :
    (initNormal targets).observed = targets.toFinset ∧
    revealObserverConfig.threshold = 0 ∧
    topBoundExpansionPx vh = 50 ∧
    revealObserverConfig.marginBottomPx = -60 := by
  refine ⟨rfl, rfl, ?_, rfl⟩
  simp [topBoundExpansionPx, revealObserverConfig]

/-- The head surviving a `dropWhile` never satisfies the predicate. -/
theorem dropWhile_head?_not {α : Type} (p : α → Bool) (l : List α) :
    (l.dropWhile p).head?.all (fun c => !p c) = true := by
  induction l with
  | nil => rfl
  | cons a t ih =>
    by_cases h : p a = true
    · simpa [List.dropWhile_cons, h] using ih
    · rw [Bool.not_eq_true] at h
      simp [List.dropWhile_cons, h]

/-- `dropWhile` either empties the list or keeps its last element. -/
theorem dropWhile_getLast?_cases {α : Type} (p : α → Bool) (l : List α) :
    l.dropWhile p = [] ∨ (l.dropWhile p).getLast? = l.getLast? := by
  induction l with
  | nil => left; rfl
  | cons a t ih =>
    by_cases h : p a = true
    · cases t with
      | nil => left; simp [List.dropWhile_cons, h]
      | cons b t2 =>
        rcases ih with h1 | h1
        · left; simp [List.dropWhile_cons, h, h1]
        · right
          rw [List.dropWhile_cons]
          simp only [h, if_true]
          rw [h1, List.getLast?_cons_cons]
    · right
      rw [Bool.not_eq_true] at h
      simp [List.dropWhile_cons, h]

/-- A fully trimmed character list has no whitespace at either end. -/
theorem trimL_noEdge (l : List Char) : noEdgeL (trimL l) = true := by
  unfold trimL noEdgeL
  have h1 :
      ((((l.dropWhile isJsWs).reverse.dropWhile isJsWs).reverse).getLast?).all
        (fun c => !isJsWs c) = true := by
    rw [List.getLast?_reverse]
    exact dropWhile_head?_not _ _
  have h2 :
      ((((l.dropWhile isJsWs).reverse.dropWhile isJsWs).reverse).head?).all
        (fun c => !isJsWs c) = true := by
    rw [List.head?_reverse]
    rcases dropWhile_getLast?_cases isJsWs (l.dropWhile isJsWs).reverse with h | h
    · rw [h]; rfl
    · rw [h, List.getLast?_reverse]
      exact dropWhile_head?_not _ _
  rw [h1, h2]
  rfl

/-- A whitespace-only string trims to the empty string, like `''.trim`. -/
theorem wsOnly_jsTrim (s : String) (h : wsOnly s = true) : jsTrim s = "" := by
  unfold wsOnly at h
  have hd : s.data.dropWhile isJsWs = [] := by
    rw [List.dropWhile_eq_nil_iff]
    intro x hx
    exact List.all_eq_true.1 h x hx
  unfold jsTrim trimL
  rw [hd]
  rfl

/-- `formStep` preserves the form linearity invariant, for inputs whose
pill value (when the input is a pill click) is one of the markup's
non-empty labels. -/
theorem formInv_step (s : FormSession) (i : FormInput)
    (hp : pillOk i = true) (h : FormInv s) : FormInv (formStep s i) := by
  obtain ⟨h1, h2, h3⟩ := h
  cases i with
  | start =>
    by_cases hs : s.step = FStep.idle
    · constructor
      · intro hx
        rcases hx with hx | hx | hx <;> simp [formStep, hs] at hx
      · constructor
        · intro hx
          rcases hx with hx | hx <;> simp [formStep, hs] at hx
        · intro hx
          simp [formStep, hs] at hx
    · simpa [formStep, hs] using ⟨h1, h2, h3⟩
  | step1Next v =>
    by_cases hs : s.step = FStep.workType
    · by_cases hv : v = ""
      · refine ⟨?_, ?_, ?_⟩ <;> intro hx <;>
          [rcases hx with hx | hx | hx; rcases hx with hx | hx; skip] <;>
          simp [formStep, hs, hv] at hx
      · refine ⟨?_, ?_, ?_⟩
        · intro _; simpa [formStep, hs, hv] using hv
        · intro hx
          rcases hx with hx | hx <;> simp [formStep, hs, hv] at hx
        · intro hx
          simp [formStep, hs, hv] at hx
    · simpa [formStep, hs] using ⟨h1, h2, h3⟩
  | pillClick v =>
    have hv : ¬(v = "") := by
      simpa [pillOk] using hp
    by_cases hs : s.step = FStep.source
    · refine ⟨?_, ?_, ?_⟩
      · intro _
        simpa [formStep, hs] using h1 (Or.inl hs)
      · intro _
        simpa [formStep, hs] using hv
      · intro hx
        simp [formStep, hs] at hx
    · simpa [formStep, hs] using ⟨h1, h2, h3⟩
  | send n e nt =>
    by_cases hs : s.step = FStep.details
    · by_cases hn : jsTrim n = ""
      · simp only [formStep]
        rw [if_pos hs, if_pos hn]
        exact ⟨h1, h2, h3⟩
      · by_cases he : jsTrim e = "" ∨ hasChar (jsTrim e) atChar = false
        · simp only [formStep]
          rw [if_pos hs, if_neg hn, if_pos he]
          exact ⟨h1, h2, h3⟩
        · push_neg at he
          refine ⟨?_, ?_, ?_⟩
          · intro _
            simpa [formStep, hs, hn, he] using h1 (Or.inr (Or.inl hs))
          · intro _
            simpa [formStep, hs, hn, he] using h2 (Or.inl hs)
          · intro _
            refine ⟨?_, ?_⟩
            · simpa [formStep, hs, hn, he] using hn
            · simp only [formStep, hs, if_true]
              have hc : hasChar (jsTrim e) atChar = true :=
                Bool.not_eq_false _ |>.mp he.2
              simp [hn, he.1, hc]
    · simpa [formStep, hs] using ⟨h1, h2, h3⟩

/-- Folded version of `formInv_step` over an input list. -/
theorem formInv_steps (inputs : List FormInput) :
    ∀ s : FormSession, inputs.all pillOk = true → FormInv s →
      FormInv (formSteps s inputs) := by
  induction inputs with
  | nil => intro s _ h; exact h
  | cons i rest ih =>
    intro s hall h
    rw [List.all_cons, Bool.and_eq_true] at hall
    exact ih (formStep s i) hall.2 (formInv_step s i hall.1 h)

/-- The dormant session satisfies the linearity invariant. -/
theorem formInv_init : FormInv initSession := by
  refine ⟨?_, ?_, ?_⟩ <;> intro hx <;>
    first
    | rcases hx with hx | hx | hx <;> simp [initSession] at hx
    | rcases hx with hx | hx <;> simp [initSession] at hx
    | simp [initSession] at hx

/-- C3: from the dormant session, no input sequence reaches the Details
step without both `work` and `source` committed non-empty, and none
reaches Success without a non-empty name and an email containing `@`;
in particular a terminal-step submission with an empty name and email
"a@b.com" is refused and leaves the session at Details with answers and
transcript untouched. -/
theorem form_linearity (inputs : List FormInput) (t : FormSession)
    (hp : inputs.all pillOk = true) (ht : t.step = FStep.details) :
    ((formSteps initSession inputs).step = FStep.details →
        (formSteps initSession inputs).answers.work ≠ "" ∧
        (formSteps initSession inputs).answers.source ≠ "") ∧
    ((formSteps initSession inputs).step = FStep.success →
        (formSteps initSession inputs).answers.name ≠ "" ∧
        hasChar (formSteps initSession inputs).answers.email atChar = true) ∧
    ((formStep t (FormInput.send "" "a@b.com" "")).step = FStep.details ∧
     (formStep t (FormInput.send "" "a@b.com" "")).answers = t.answers ∧
     (formStep t (FormInput.send "" "a@b.com" "")).transcript = t.transcript) := by
  obtain ⟨h1, h2, h3⟩ := formInv_steps inputs initSession hp formInv_init
  refine ⟨fun hd => ⟨h1 (Or.inr (Or.inl hd)), h2 (Or.inl hd)⟩, h3, ?_⟩
  have h0 : jsTrim "" = "" := rfl
  simp only [formStep]
  rw [if_pos ht, if_pos h0]
  exact ⟨ht, rfl, rfl⟩

/-- Witness for `form_linearity` on the concrete trace and a concrete
Details-step session. -/
theorem form_linearity_witness :
    (c5Inputs.all pillOk = true ∧ detailsSession.step = FStep.details) ∧
    (((formSteps initSession c5Inputs).step = FStep.details →
        (formSteps initSession c5Inputs).answers.work ≠ "" ∧
        (formSteps initSession c5Inputs).answers.source ≠ "") ∧
     ((formSteps initSession c5Inputs).step = FStep.success →
        (formSteps initSession c5Inputs).answers.name ≠ "" ∧
        hasChar (formSteps initSession c5Inputs).answers.email atChar = true) ∧
     ((formStep detailsSession (FormInput.send "" "a@b.com" "")).step =
        FStep.details ∧
      (formStep detailsSession (FormInput.send "" "a@b.com" "")).answers =
        detailsSession.answers ∧
      (formStep detailsSession (FormInput.send "" "a@b.com" "")).transcript =
        detailsSession.transcript)) :=
  ⟨⟨by decide, rfl⟩, form_linearity c5Inputs detailsSession (by decide) rfl⟩

/-- C5: the concrete trace [start, work="Design", source="Referral",
name="Ana", email="ana@x.com", note=""] ends in Success with a strictly
alternating bot/user transcript and a single composed payload carrying
the fixed recipient, a subject built from the name and work type, and a
body whose lines are name, email, work and source — with no Note line —
closed by the boilerplate line. -/
theorem transcript_causality :
    (formSteps initSession c5Inputs).step = FStep.success ∧
    alternatesBotUser (formSteps initSession c5Inputs).transcript = true ∧
    (formSteps initSession c5Inputs).payload = some (composeMail c5Answers) ∧
    (composeMail c5Answers).recipient = "azlanallahwala@gmail.com" ∧
    (composeMail c5Answers).subject = "New inquiry from Ana — Design" ∧
    strLines (composeMail c5Answers).body =
      ["Hi Azlan,", "", "Name: Ana", "Email: ana@x.com",
       "Looking for: Design", "Found you via: Referral", "",
       "Sent from your portfolio site."] := by
  exact ⟨rfl, rfl, rfl, rfl, rfl, rfl⟩

/-- C8: a failing terminal submission (empty trimmed name, or trimmed
email empty or lacking `@`) is atomic: step, answers, transcript and
payload are all unchanged — only the offending field is flagged (name
checked first, else email) — so the user can retry indefinitely. -/
theorem send_failure_atomic (s : FormSession) (n e nt : String)
    (hs : s.step = FStep.details)
    (hfail : jsTrim n = "" ∨ jsTrim e = "" ∨
      hasChar (jsTrim e) atChar = false) :
    (formStep s (FormInput.send n e nt)).step = FStep.details ∧
    (formStep s (FormInput.send n e nt)).answers = s.answers ∧
    (formStep s (FormInput.send n e nt)).transcript = s.transcript ∧
    (formStep s (FormInput.send n e nt)).payload = s.payload ∧
    (jsTrim n = "" →
      (formStep s (FormInput.send n e nt)).flagged = some FField.nameField) ∧
    (jsTrim n ≠ "" →
      (formStep s (FormInput.send n e nt)).flagged = some FField.emailField) := by
  by_cases hn : jsTrim n = ""
  · simp only [formStep]
    rw [if_pos hs, if_pos hn]
    exact ⟨hs, rfl, rfl, rfl, fun _ => rfl, fun hc => absurd hn hc⟩
  · have he : jsTrim e = "" ∨ hasChar (jsTrim e) atChar = false :=
      hfail.resolve_left hn
    simp only [formStep]
    rw [if_pos hs, if_neg hn, if_pos he]
    exact ⟨hs, rfl, rfl, rfl, fun hc => absurd hc hn, fun _ => rfl⟩

/-- Witness for `send_failure_atomic`: a whitespace-only name against a
concrete Details-step session. -/
theorem send_failure_atomic_witness :
    (detailsSession.step = FStep.details ∧
     (jsTrim " " = "" ∨ jsTrim "nope" = "" ∨
       hasChar (jsTrim "nope") atChar = false)) ∧
    ((formStep detailsSession (FormInput.send " " "nope" "")).step =
       FStep.details ∧
     (formStep detailsSession (FormInput.send " " "nope" "")).answers =
       detailsSession.answers ∧
     (formStep detailsSession (FormInput.send " " "nope" "")).transcript =
       detailsSession.transcript ∧
     (formStep detailsSession (FormInput.send " " "nope" "")).payload =
       detailsSession.payload ∧
     (jsTrim " " = "" →
       (formStep detailsSession (FormInput.send " " "nope" "")).flagged =
         some FField.nameField) ∧
     (jsTrim " " ≠ "" →
       (formStep detailsSession (FormInput.send " " "nope" "")).flagged =
         some FField.emailField)) :=
  ⟨⟨rfl, Or.inl (by decide)⟩,
   send_failure_atomic detailsSession " " "nope" "" rfl (Or.inl (by decide))⟩

/-- C10: the terminal submission trims name, email and note before
validation and commit: a whitespace-only name (resp. email) is refused
exactly like the empty string, and a successful submission commits
exactly the trimmed values — none of which carries leading or trailing
whitespace — and composes its payload from those committed answers. -/
theorem send_trims_inputs (s : FormSession) (n e nt : String)
    (hs : s.step = FStep.details) :
    (wsOnly n = true →
        formStep s (FormInput.send n e nt) =
          formStep s (FormInput.send "" e nt)) ∧
    (wsOnly e = true →
        formStep s (FormInput.send n e nt) =
          formStep s (FormInput.send n "" nt)) ∧
    (∀ s2 : FormSession, formStep s (FormInput.send n e nt) = s2 →
        s2.step = FStep.success →
        s2.answers.name = jsTrim n ∧ s2.answers.email = jsTrim e ∧
        s2.answers.note = jsTrim nt ∧
        noEdgeWs s2.answers.name = true ∧ noEdgeWs s2.answers.email = true ∧
        noEdgeWs s2.answers.note = true ∧
        s2.payload = some (composeMail s2.answers)) := by
  have h0 : jsTrim "" = "" := rfl
  refine ⟨?_, ?_, ?_⟩
  · intro hw
    have hn := wsOnly_jsTrim n hw
    simp [formStep, hs, hn, h0]
  · intro hw
    have he := wsOnly_jsTrim e hw
    by_cases hn : jsTrim n = ""
    · simp [formStep, hs, hn]
    · simp [formStep, hs, hn, he, h0]
  · intro s2 heq hsuc
    subst heq
    by_cases hn : jsTrim n = ""
    · rw [show formStep s (FormInput.send n e nt) =
          { s with flagged := some FField.nameField } by
            simp only [formStep]; rw [if_pos hs, if_pos hn]] at hsuc ⊢
      rw [hs] at hsuc
      exact absurd hsuc (by decide)
    · by_cases he : jsTrim e = "" ∨ hasChar (jsTrim e) atChar = false
      · rw [show formStep s (FormInput.send n e nt) =
            { s with flagged := some FField.emailField } by
              simp only [formStep]; rw [if_pos hs, if_neg hn, if_pos he]] at hsuc ⊢
        rw [hs] at hsuc
        exact absurd hsuc (by decide)
      · simp only [formStep]
        rw [if_pos hs, if_neg hn, if_neg he]
        refine ⟨rfl, rfl, rfl, ?_, ?_, ?_, rfl⟩
        · exact trimL_noEdge n.data
        · exact trimL_noEdge e.data
        · exact trimL_noEdge nt.data

/-- Witness for `send_trims_inputs`: padded name and email against a
concrete Details-step session. -/
theorem send_trims_inputs_witness :
    detailsSession.step = FStep.details ∧
    ((wsOnly " Ana " = true →
        formStep detailsSession (FormInput.send " Ana " " ana@x.com " "") =
          formStep detailsSession (FormInput.send "" " ana@x.com " "")) ∧
     (wsOnly " ana@x.com " = true →
        formStep detailsSession (FormInput.send " Ana " " ana@x.com " "") =
          formStep detailsSession (FormInput.send " Ana " "" "")) ∧
     (∀ s2 : FormSession,
        formStep detailsSession (FormInput.send " Ana " " ana@x.com " "") = s2 →
        s2.step = FStep.success →
        s2.answers.name = jsTrim " Ana " ∧
        s2.answers.email = jsTrim " ana@x.com " ∧
        s2.answers.note = jsTrim "" ∧
        noEdgeWs s2.answers.name = true ∧ noEdgeWs s2.answers.email = true ∧
        noEdgeWs s2.answers.note = true ∧
        s2.payload = some (composeMail s2.answers))) :=
  ⟨rfl, send_trims_inputs detailsSession " Ana " " ana@x.com " "" rfl⟩
